import Mathlib

/-!
Verification of the 13-bit bytecode simulator (src/simulator.cpp) against its
natural-language specification.

The embedding models the program faithfully:
* instructions are lists of characters (the C++ reads whitespace-delimited
  tokens into `std::string`s);
* `substr` mirrors `std::string::substr(pos, len)` for in-range positions;
* the register file and array table are association lists mirroring
  `std::map` with `operator[]` read semantics (a read of an absent key
  default-inserts it), since the C++ uses `registers[lhs]` style accesses;
* machine integers (`unsigned int`) are `Nat` with explicit `% 2^32`
  where the C++ stores an arithmetic result into a register;
* the run is `run memory input : ExitStatus × VMState`, mirroring `main`
  after the file has been read into `memory`: the halt pre-check, the
  opcode pre-pass, then the fetch-decode-execute loop.
-/

namespace Simulator

/-- Mirrors `std::string::substr(pos, len)`: the substring of `s` starting at
`pos` of length at most `len` (the C++ throws when `pos > size`; every call
site in the simulator passes an in-range `pos` for 13-character tokens). -/
def substr (s : List Char) (pos len : Nat) : List Char :=
  (s.drop pos).take len

/-- Mirrors `binaryToDecimal` (simulator.cpp lines 268-275): each character
equal to `'1'` at index `i` of a length-`L` string contributes
`2 ^ (L - 1 - i)`; every other character contributes nothing. -/
def binaryToDecimal : List Char → Nat
  | [] => 0
  | c :: rest => (if c = '1' then 2 ^ rest.length else 0) + binaryToDecimal rest

/-- Mirrors `global::validRegister` (simulator.cpp lines 67-78): the string
must have size 2 and both characters must be `'0'` or `'1'`. -/
def validRegister (reg : List Char) : Bool :=
  decide (reg.length = 2) &&
    ((decide (reg.getD 0 ' ' = '0') || decide (reg.getD 0 ' ' = '1')) &&
     (decide (reg.getD 1 ' ' = '0') || decide (reg.getD 1 ' ' = '1')))

/-- The wrap modulus of the C++ `unsigned int` registers. -/
def W : Nat := 2 ^ 32

/-- The four register codes. -/
def c00 : List Char := ['0', '0']

/-- Register code `01`. -/
def c01 : List Char := ['0', '1']

/-- Register code `10`. -/
def c10 : List Char := ['1', '0']

/-- Register code `11`. -/
def c11 : List Char := ['1', '1']

/-- The all-zero `Stop` token `0000000000000`. -/
def stopWord : List Char := List.replicate 13 '0'

/-- Lookup in an association list, mirroring `std::map::find`. -/
def mlookup {α : Type} : List (List Char × α) → List Char → Option α
  | [], _ => none
  | (k, v) :: rest, key => if k = key then some v else mlookup rest key

/-- Read of `std::map<std::string, unsigned int>` via `operator[]`:
an absent key reads as the default-constructed value 0. -/
def mget (m : List (List Char × Nat)) (k : List Char) : Nat :=
  (mlookup m k).getD 0

/-- Read of `std::map<std::string, std::vector<unsigned int>>` via
`operator[]`: an absent key reads as the empty vector. -/
def mgetArr (m : List (List Char × List Nat)) (k : List Char) : List Nat :=
  (mlookup m k).getD []

/-- Assignment through `operator[]`: update the binding if the key is
present, otherwise insert it. -/
def mset {α : Type} : List (List Char × α) → List Char → α → List (List Char × α)
  | [], key, v => [(key, v)]
  | (k, w) :: rest, key, v =>
      if k = key then (key, v) :: rest else (k, w) :: mset rest key v

/-- The default-insertion side effect of a pure `operator[]` read: if the
key is absent it is inserted with the default value `d`. -/
def mtouch {α : Type} (d : α) (m : List (List Char × α)) (k : List Char) :
    List (List Char × α) :=
  match mlookup m k with
  | some _ => m
  | none => m ++ [(k, d)]

/-- The architectural state owned by the execution engine: the register
map, the array map, and the two console streams (pending input values and
values written by `Out`). -/
structure VMState where
  registers : List (List Char × Nat)
  arrays : List (List Char × List Nat)
  input : List Nat
  output : List Nat
deriving DecidableEq

/-- Exit behaviour of `main`: success, or one of the fatal validation
errors, each carrying the bit pattern named in the error message. -/
inductive ExitStatus
  | success
  | missingHaltError
  | invalidOpcodeError (opcode : List Char)
  | invalidRegisterError (reg : List Char)
deriving DecidableEq

/-- Result of executing one instruction: either the updated state, or an
abort naming the register string that failed `validRegister` together with
the state at the moment of the abort. -/
inductive StepRes
  | ok (st : VMState)
  | fail (reg : List Char) (st : VMState)
deriving DecidableEq

/-- The state carried by a step result. -/
def StepRes.state : StepRes → VMState
  | .ok st => st
  | .fail _ st => st

/-- The state after `main` has initialized the four registers
(simulator.cpp lines 104-107) and loaded the file, before the pre-checks. -/
def initState (input : List Nat) : VMState :=
  ⟨[(c00, 0), (c01, 0), (c10, 0), (c11, 0)], [], input, []⟩

/-- One iteration of the execution loop (simulator.cpp lines 135-264): the
if/else chain on `binaryToDecimal(opcode)`.  Note that the `Stop` branch
only prints a message and does not leave the loop, and that the Add/Sub/Mul
branches read `lhs`, `rhs` at `substr(5,2)`, `substr(7,2)` without
validation and the destination at `substr(9,2)`. -/
def step (ins : List Char) (st : VMState) : StepRes :=
  let op := binaryToDecimal (substr ins 0 5)
  if op = 0 then
    -- Stop: prints the success message and falls through to the next word
    .ok st
  else if op = 1 then
    -- In: reads from the console before the destination is validated
    let value := st.input.headD 0
    let st1 : VMState := { st with input := st.input.tail }
    let destination := substr ins 5 2
    if validRegister destination then
      .ok { st1 with registers := mset st1.registers destination (value % W) }
    else .fail destination st1
  else if op = 2 then
    let source := substr ins 5 2
    if validRegister source then
      let regs := mtouch 0 st.registers source
      .ok { st with registers := regs, output := st.output ++ [mget regs source] }
    else .fail source st
  else if op = 3 then
    let amount := binaryToDecimal (substr ins 5 6)
    let source := ins.drop 11
    if validRegister source then
      .ok { st with registers := mset st.registers source ((mget st.registers source + amount) % W) }
    else .fail source st
  else if op = 4 then
    let lhs := substr ins 5 2
    let rhs := substr ins 7 2
    let destination := substr ins 9 2
    if validRegister destination then
      let regs := mtouch 0 (mtouch 0 st.registers lhs) rhs
      .ok { st with registers := mset regs destination ((mget st.registers lhs + mget st.registers rhs) % W) }
    else .fail destination st
  else if op = 5 then
    let lhs := substr ins 5 2
    let rhs := substr ins 7 2
    let destination := substr ins 9 2
    if validRegister destination then
      let regs := mtouch 0 (mtouch 0 st.registers lhs) rhs
      .ok { st with registers := mset regs destination ((mget st.registers lhs + (W - mget st.registers rhs % W)) % W) }
    else .fail destination st
  else if op = 6 then
    let lhs := substr ins 5 2
    let rhs := substr ins 7 2
    let destination := substr ins 9 2
    if validRegister destination then
      let regs := mtouch 0 (mtouch 0 st.registers lhs) rhs
      .ok { st with registers := mset regs destination ((mget st.registers lhs * mget st.registers rhs) % W) }
    else .fail destination st
  else if op = 7 then
    if substr ins 7 4 = ['0', '0', '0', '0'] then
      let registerAddress := substr ins 5 2
      if validRegister registerAddress then
        let amount := mget st.registers registerAddress
        let regs := mtouch 0 st.registers registerAddress
        let source := ins.drop 11
        if validRegister source then
          .ok { st with registers := regs, arrays := mset st.arrays source (List.replicate amount 0) }
        else .fail source { st with registers := regs }
      else .fail registerAddress st
    else
      let amount := binaryToDecimal (substr ins 5 6)
      let source := ins.drop 11
      if validRegister source then
        .ok { st with arrays := mset st.arrays source (List.replicate amount 0) }
      else .fail source st
  else if op = 8 then
    let source := substr ins 5 2
    if validRegister source then
      let arrs := mtouch [] st.arrays source
      let n := (mgetArr arrs source).length
      .ok { st with arrays := mset arrs source ((List.range n).map (fun i => (st.input.get? i).getD 0 % W)),
                    input := st.input.drop n }
    else .fail source st
  else if op = 9 then
    let source := substr ins 5 2
    let destination := substr ins 7 2
    if validRegister source && validRegister destination then
      let arrs := mtouch [] st.arrays source
      let sum := (mgetArr arrs source).sum % W
      .ok { st with arrays := arrs, registers := mset st.registers destination sum }
    else .fail (if validRegister source then destination else source) st
  else if op = 10 then
    .ok { st with registers := st.registers.map (fun p => (p.1, 0)) }
  else
    .ok st

/-- The execution pass (simulator.cpp lines 135-264): visit memory in
order, aborting with `InvalidRegisterError` when a step fails. -/
def execLoop : List (List Char) → VMState → ExitStatus × VMState
  | [], st => (.success, st)
  | ins :: rest, st =>
      match step ins st with
      | .ok st1 => execLoop rest st1
      | .fail reg st1 => (.invalidRegisterError reg, st1)

/-- The whole run of `main` after the file has been loaded into `memory`:
the halt pre-check (lines 117-121), the opcode pre-pass (lines 124-132),
then the execution loop. -/
def run (memory : List (List Char)) (input : List Nat) : ExitStatus × VMState :=
  let st := initState input
  if stopWord ∈ memory then
    match memory.find? (fun ins => decide (10 < binaryToDecimal (substr ins 0 5))) with
    | some ins => (.invalidOpcodeError (substr ins 0 5), st)
    | none => execLoop memory st
  else
    (.missingHaltError, st)

/-- Modelled from the spec: the canonical integer-to-fixed-width-binary
encoder that `binaryToInteger` is claimed to round-trip with (most
significant bit leftmost). -/
def natToBinary : Nat → Nat → List Char
  | 0, _ => []
  | w + 1, n => natToBinary w (n / 2) ++ [if n % 2 = 1 then '1' else '0']

/-- A well-formed instruction word per the spec data model: exactly 13
characters, each `'0'` or `'1'`. -/
def wf13 (ins : List Char) : Prop :=
  ins.length = 13 ∧ ∀ c ∈ ins, c = '0' ∨ c = '1'

/-- The key list of a register or array map. -/
def regKeys {α : Type} : List (List Char × α) → List (List Char)
  | [] => []
  | (k, _) :: rest => k :: regKeys rest

/-- The arithmetic performed by the Add (4), Sub (5) and Mul (6) handlers
on two register values, with `unsigned int` wraparound. -/
def opResult (op a b : Nat) : Nat :=
  if op = 4 then (a + b) % W
  else if op = 5 then (a + (W - b % W)) % W
  else (a * b) % W

/-- Concrete Incr instruction: opcode 3, literal amount 1, register 00. -/
def incrOne : List Char := ['0', '0', '0', '1', '1', '0', '0', '0', '0', '0', '1', '0', '0']

/-- Concrete Incr instruction: opcode 3, literal amount 5, register 00. -/
def incrFive : List Char := ['0', '0', '0', '1', '1', '0', '0', '0', '1', '0', '1', '0', '0']

/-- Concrete Add instruction: lhs and rhs fields `00`, the field at bit
offsets 9-11 is `01`, and the trailing field at bit offsets 11-13 is `10`. -/
def addIns : List Char := ['0', '0', '1', '0', '0', '0', '0', '0', '0', '0', '1', '1', '0']

/-- Concrete Add instruction whose lhs field (bit offsets 5-7) is the
non-binary string `22`. -/
def addBad : List Char := ['0', '0', '1', '0', '0', '2', '2', '0', '0', '0', '0', '0', '0']

/-- Token whose 5-bit opcode field decodes to 31, above TidyUp (10). -/
def badOpcode : List Char := List.replicate 13 '1'

/-- Concrete List instruction: opcode 7, literal size 3 (discriminator
bits 7-11 are `0011`, not `0000`), destination register code 01. -/
def listIns : List Char := ['0', '0', '1', '1', '1', '0', '0', '0', '0', '1', '1', '0', '1']

/-- Concrete TidyUp instruction: opcode 10. -/
def tidyIns : List Char := ['0', '1', '0', '1', '0', '0', '0', '0', '0', '0', '0', '0', '0']

/-- Concrete ListSum instruction: opcode 9, source register 00,
destination register 01. -/
def listSumIns : List Char := ['0', '1', '0', '0', '1', '0', '0', '0', '1', '0', '0', '0', '0']

theorem mlookup_mset_self {α : Type} (m : List (List Char × α)) (k : List Char) (v : α) :
    mlookup (mset m k v) k = some v := by
  induction m with
  | nil => simp [mset, mlookup]
  | cons p rest ih =>
      by_cases h : p.1 = k
      · simp [mset, h, mlookup]
      · simpa [mset, h, mlookup] using ih

theorem mget_mset_self (m : List (List Char × Nat)) (k : List Char) (v : Nat) :
    mget (mset m k v) k = v := by
  simp [mget, mlookup_mset_self]

theorem mlookup_eq_none_iff {α : Type} (m : List (List Char × α)) (k : List Char) :
    mlookup m k = none ↔ k ∉ regKeys m := by
  induction m with
  | nil => simp [mlookup, regKeys]
  | cons p rest ih =>
      obtain ⟨a, b⟩ := p
      by_cases h : a = k
      · simp [mlookup, h, regKeys]
      · simp [mlookup, h, regKeys, ih]
        intro hnot heq
        exact h heq.symm

theorem mtouch_eq_of_mem {α : Type} (d : α) (m : List (List Char × α)) (k : List Char)
    (h : k ∈ regKeys m) : mtouch d m k = m := by
  unfold mtouch
  cases hl : mlookup m k with
  | some v => rfl
  | none => exact absurd h ((mlookup_eq_none_iff m k).mp hl)

theorem regKeys_mset_mem {α : Type} (m : List (List Char × α)) (k : List Char) (v : α)
    (h : k ∈ regKeys m) : regKeys (mset m k v) = regKeys m := by
  induction m with
  | nil => simp [regKeys] at h
  | cons p rest ih =>
      obtain ⟨a, b⟩ := p
      by_cases hk : a = k
      · simp [mset, hk, regKeys]
      · have hmem : k ∈ regKeys rest := by
          have h1 : k = a ∨ k ∈ regKeys rest := by simpa [regKeys] using h
          rcases h1 with h1 | h1
          · exact absurd h1.symm hk
          · exact h1
        have h2 := ih hmem
        simp [mset, hk, regKeys] at h2 ⊢
        exact h2

theorem mlookup_map_zero (m : List (List Char × Nat)) (k : List Char) :
    mlookup (m.map (fun p => (p.1, 0))) k = (mlookup m k).map (fun _ => 0) := by
  induction m with
  | nil => simp [mlookup]
  | cons p rest ih =>
      obtain ⟨a, b⟩ := p
      by_cases h : a = k
      · simp [mlookup, h]
      · simp [mlookup, h, ih]

theorem mget_map_zero (m : List (List Char × Nat)) (k : List Char) :
    mget (m.map (fun p => (p.1, 0))) k = 0 := by
  rw [mget, mlookup_map_zero]
  cases mlookup m k <;> rfl

theorem regKeys_map_zero (m : List (List Char × Nat)) :
    regKeys (m.map (fun p => (p.1, 0))) = regKeys m := by
  induction m with
  | nil => rfl
  | cons p rest ih =>
      obtain ⟨a, b⟩ := p
      simp [regKeys, ih]

theorem mlookup_append_none {α : Type} (m : List (List Char × α)) (k : List Char) (d : α)
    (h : mlookup m k = none) : mlookup (m ++ [(k, d)]) k = some d := by
  induction m with
  | nil => simp [mlookup]
  | cons p rest ih =>
      obtain ⟨a, b⟩ := p
      by_cases hk : a = k
      · simp [mlookup, hk] at h
      · simp [mlookup, hk] at h ⊢
        exact ih h

theorem mlookup_append_some {α : Type} (m l : List (List Char × α)) (k : List Char)
    (v : α) (h : mlookup m k = some v) : mlookup (m ++ l) k = some v := by
  induction m with
  | nil => simp [mlookup] at h
  | cons p rest ih =>
      obtain ⟨a, b⟩ := p
      by_cases hk : a = k
      · simp [mlookup, hk] at h ⊢
        exact h
      · simp [mlookup, hk] at h ⊢
        exact ih h

theorem mlookup_append_single_ne {α : Type} (m : List (List Char × α)) (k k2 : List Char)
    (d : α) (hne : k2 ≠ k) : mlookup (m ++ [(k, d)]) k2 = mlookup m k2 := by
  induction m with
  | nil => simp [mlookup, Ne.symm hne]
  | cons p rest ih =>
      obtain ⟨a, b⟩ := p
      by_cases hk : a = k2
      · simp [mlookup, hk]
      · simp [mlookup, hk, ih]

theorem mlookup_mtouch_self_none {α : Type} (d : α) (m : List (List Char × α))
    (k : List Char) (h : mlookup m k = none) : mlookup (mtouch d m k) k = some d := by
  unfold mtouch
  rw [h]
  exact mlookup_append_none _ _ _ h

theorem mlookup_mtouch_of_some {α : Type} (d : α) (m : List (List Char × α))
    (k k2 : List Char) (v : α) (h : mlookup m k2 = some v) :
    mlookup (mtouch d m k) k2 = some v := by
  unfold mtouch
  cases hk : mlookup m k with
  | some w => exact h
  | none => exact mlookup_append_some _ _ _ _ h

theorem mlookup_mtouch_of_ne {α : Type} (d : α) (m : List (List Char × α))
    (k k2 : List Char) (hne : k2 ≠ k) : mlookup (mtouch d m k) k2 = mlookup m k2 := by
  unfold mtouch
  cases hk : mlookup m k with
  | some w => rfl
  | none => exact mlookup_append_single_ne _ _ _ _ hne

theorem mlookup_mset_ne {α : Type} (m : List (List Char × α)) (k k2 : List Char)
    (v : α) (hne : k2 ≠ k) : mlookup (mset m k v) k2 = mlookup m k2 := by
  induction m with
  | nil => simp [mset, mlookup, Ne.symm hne]
  | cons p rest ih =>
      obtain ⟨a, b⟩ := p
      by_cases hk : a = k
      · subst hk
        simp [mset, mlookup, Ne.symm hne, hne]
      · by_cases hk2 : a = k2
        · simp [mset, hk, mlookup, hk2, hne]
        · simp [mset, hk, mlookup, hk2, ih]

theorem length_eq_two_cases (l : List Char) (hl : l.length = 2)
    (hb : ∀ c ∈ l, c = '0' ∨ c = '1') :
    l = c00 ∨ l = c01 ∨ l = c10 ∨ l = c11 := by
  obtain ⟨a, b, rfl⟩ := List.length_eq_two.mp hl
  rcases hb a (by simp) with ha | ha <;> rcases hb b (by simp) with hbb | hbb <;>
    subst ha <;> subst hbb <;> simp [c00, c01, c10, c11]

theorem substr_code (ins : List Char) (pos : Nat) (hwf : wf13 ins)
    (hpos : pos + 2 ≤ 13) :
    substr ins pos 2 = c00 ∨ substr ins pos 2 = c01 ∨
      substr ins pos 2 = c10 ∨ substr ins pos 2 = c11 := by
  obtain ⟨hlen, hbin⟩ := hwf
  apply length_eq_two_cases
  · simp [substr, hlen]
    omega
  · intro c hc
    exact hbin c (List.mem_of_mem_drop (List.mem_of_mem_take hc))

theorem drop11_code (ins : List Char) (hwf : wf13 ins) :
    ins.drop 11 = c00 ∨ ins.drop 11 = c01 ∨ ins.drop 11 = c10 ∨ ins.drop 11 = c11 := by
  obtain ⟨hlen, hbin⟩ := hwf
  apply length_eq_two_cases
  · simp [hlen]
  · intro c hc
    exact hbin c (List.mem_of_mem_drop hc)

theorem binaryToDecimal_append_singleton (xs : List Char) (c : Char) :
    binaryToDecimal (xs ++ [c]) =
      2 * binaryToDecimal xs + (if c = '1' then 1 else 0) := by
  induction xs with
  | nil => simp [binaryToDecimal]
  | cons a rest ih =>
      by_cases ha : a = '1'
      · simp [binaryToDecimal, ha, ih, pow_succ]
        ring
      · simp [binaryToDecimal, ha, ih, pow_succ]

theorem binaryToDecimal_natToBinary (w n : Nat) (h : n < 2 ^ w) :
    binaryToDecimal (natToBinary w n) = n := by
  induction w generalizing n with
  | zero =>
      interval_cases n
      rfl
  | succ w ih =>
      have hdiv : n / 2 < 2 ^ w := by
        apply Nat.div_lt_of_lt_mul
        rw [pow_succ] at h
        omega
      rw [natToBinary, binaryToDecimal_append_singleton, ih (n / 2) hdiv]
      by_cases hm : n % 2 = 1
      · simp [hm]
        omega
      · simp [hm]
        omega

theorem binaryToDecimal_replicate_zero (L : Nat) :
    binaryToDecimal (List.replicate L '0') = 0 := by
  induction L with
  | zero => rfl
  | succ L ih => simp [List.replicate_succ, binaryToDecimal, ih]

theorem find?_mem_of_exists {p : List Char → Bool} (l : List (List Char))
    (h : ∃ x ∈ l, p x = true) :
    ∃ y ∈ l, l.find? p = some y ∧ p y = true := by
  induction l with
  | nil => simp at h
  | cons a t ih =>
      by_cases hpa : p a = true
      · exact ⟨a, by simp, by simp [List.find?_cons_of_pos _ hpa], hpa⟩
      · obtain ⟨x, hx, hpx⟩ := h
        have hxt : x ∈ t := by
          rcases List.mem_cons.mp hx with h1 | h1
          · exact absurd (h1 ▸ hpx) hpa
          · exact h1
        obtain ⟨y, hy, hfind, hpy⟩ := ih ⟨x, hxt, hpx⟩
        refine ⟨y, List.mem_cons_of_mem _ hy, ?_, hpy⟩
        rw [List.find?_cons_of_neg _ (by simpa using hpa)]
        exact hfind

/-- C1: the spec claims the fetch-decode-execute loop terminates as soon
as a `Stop` instruction is reached, with nothing after it executed.  The
code's own opcode table documents `Stop` as terminating the program, but
the `Stop` branch of the loop only prints a message and does not leave the
loop: with a `Stop` word followed by an `Incr` of register 00 by 1, the
`Incr` is still executed (register 00 ends at 1) and the run exits with
success. -/
theorem C1_stop_does_not_halt_loop :
    (run [stopWord, incrOne] []).1 = ExitStatus.success ∧
      mget (run [stopWord, incrOne] []).2.registers c00 = 1 := by
  decide

/-- C2 counterexample: the claim says the Add/Sub/Mul destination is the
2-bit field at bit offsets 11-13.  In the code it is `substr(9, 2)`: after
`Incr 00 by 5` and an Add with lhs = rhs = `00` whose bits 9-11 are `01`
and bits 11-13 are `10`, the sum 10 lands in register 01 while register 10
(named by bits 11-13) stays 0. -/
theorem C2_dest_not_bits_11_13 :
    binaryToDecimal (substr addIns 0 5) = 4 ∧
      substr addIns 11 2 = c10 ∧
      (run [incrFive, addIns, stopWord] []).1 = ExitStatus.success ∧
      mget (run [incrFive, addIns, stopWord] []).2.registers c10 = 0 ∧
      mget (run [incrFive, addIns, stopWord] []).2.registers c01 = 10 := by
  decide

/-- C2 amended: for every Add, Sub or Mul instruction whose destination
field passes validation, the destination register operand is decoded from
the 2-bit field at bit offsets 9-11 (`substr(9, 2)`), and the arithmetic
result is stored into that register. -/
theorem C2_amended_dest_bits_9_11 (st : VMState) (ins : List Char)
    (hop : binaryToDecimal (substr ins 0 5) = 4 ∨
      binaryToDecimal (substr ins 0 5) = 5 ∨ binaryToDecimal (substr ins 0 5) = 6)
    (hdest : validRegister (substr ins 9 2) = true) :
    ∃ st1, step ins st = .ok st1 ∧
      mget st1.registers (substr ins 9 2) =
        opResult (binaryToDecimal (substr ins 0 5))
          (mget st.registers (substr ins 5 2)) (mget st.registers (substr ins 7 2)) := by
  rcases hop with h | h | h
  · refine ⟨⟨mset (mtouch 0 (mtouch 0 st.registers (substr ins 5 2)) (substr ins 7 2))
        (substr ins 9 2)
        ((mget st.registers (substr ins 5 2) + mget st.registers (substr ins 7 2)) % W),
      st.arrays, st.input, st.output⟩, ?_, ?_⟩
    · simp [step, h, hdest]
    · simp [h, opResult, mget_mset_self]
  · refine ⟨⟨mset (mtouch 0 (mtouch 0 st.registers (substr ins 5 2)) (substr ins 7 2))
        (substr ins 9 2)
        ((mget st.registers (substr ins 5 2) + (W - mget st.registers (substr ins 7 2) % W)) % W),
      st.arrays, st.input, st.output⟩, ?_, ?_⟩
    · simp [step, h, hdest]
    · simp [h, opResult, mget_mset_self]
  · refine ⟨⟨mset (mtouch 0 (mtouch 0 st.registers (substr ins 5 2)) (substr ins 7 2))
        (substr ins 9 2)
        ((mget st.registers (substr ins 5 2) * mget st.registers (substr ins 7 2)) % W),
      st.arrays, st.input, st.output⟩, ?_, ?_⟩
    · simp [step, h, hdest]
    · simp [h, opResult, mget_mset_self]

/-- C3 counterexample: the claim says every 2-bit register-naming field,
including the lhs and rhs of Add, is validated before use, with an abort
on failure.  The Add handler only validates the destination: an Add whose
lhs field is the invalid string `22` executes without abort (the run still
succeeds) and default-inserts the key `22` into the register map. -/
theorem C3_lhs_not_validated :
    validRegister (substr addBad 5 2) = false ∧
      (run [addBad, stopWord] []).1 = ExitStatus.success ∧
      mlookup (run [addBad, stopWord] []).2.registers ['2', '2'] = some 0 := by
  decide

/-- C3 amended: in the Add, Sub and Mul handlers only the destination
field (`substr(9, 2)`) is validated: if it fails the check the step aborts
naming that field with the state unchanged; if it passes, the step
executes regardless of the contents of the lhs and rhs fields, reading an
absent lhs or rhs key as 0 and default-inserting it into the register map.
The single register-naming field of each other handler (In, Out, Incr,
the List size register and destination, ListInit, and both ListSum fields)
is validated before use, the step aborting with that field named when the
check fails. -/
theorem C3_amended_only_dest_checked (st : VMState) (ins : List Char) :
    ((binaryToDecimal (substr ins 0 5) = 4 ∨ binaryToDecimal (substr ins 0 5) = 5 ∨
        binaryToDecimal (substr ins 0 5) = 6) →
      (validRegister (substr ins 9 2) = false →
        step ins st = .fail (substr ins 9 2) st) ∧
      (validRegister (substr ins 9 2) = true →
        ∃ st1, step ins st = .ok st1 ∧
          mget st1.registers (substr ins 9 2) =
            opResult (binaryToDecimal (substr ins 0 5))
              ((mlookup st.registers (substr ins 5 2)).getD 0)
              ((mlookup st.registers (substr ins 7 2)).getD 0) ∧
          (mlookup st.registers (substr ins 5 2) = none →
            substr ins 5 2 ≠ substr ins 9 2 →
            mlookup st1.registers (substr ins 5 2) = some 0) ∧
          (mlookup st.registers (substr ins 7 2) = none →
            substr ins 7 2 ≠ substr ins 9 2 →
            mlookup st1.registers (substr ins 7 2) = some 0))) ∧
    (binaryToDecimal (substr ins 0 5) = 1 → validRegister (substr ins 5 2) = false →
      step ins st = .fail (substr ins 5 2) { st with input := st.input.tail }) ∧
    (binaryToDecimal (substr ins 0 5) = 2 → validRegister (substr ins 5 2) = false →
      step ins st = .fail (substr ins 5 2) st) ∧
    (binaryToDecimal (substr ins 0 5) = 3 → validRegister (ins.drop 11) = false →
      step ins st = .fail (ins.drop 11) st) ∧
    (binaryToDecimal (substr ins 0 5) = 7 → substr ins 7 4 = ['0', '0', '0', '0'] →
      validRegister (substr ins 5 2) = false →
      step ins st = .fail (substr ins 5 2) st) ∧
    (binaryToDecimal (substr ins 0 5) = 7 → substr ins 7 4 = ['0', '0', '0', '0'] →
      validRegister (substr ins 5 2) = true → validRegister (ins.drop 11) = false →
      step ins st = .fail (ins.drop 11)
        { st with registers := mtouch 0 st.registers (substr ins 5 2) }) ∧
    (binaryToDecimal (substr ins 0 5) = 7 → substr ins 7 4 ≠ ['0', '0', '0', '0'] →
      validRegister (ins.drop 11) = false →
      step ins st = .fail (ins.drop 11) st) ∧
    (binaryToDecimal (substr ins 0 5) = 8 → validRegister (substr ins 5 2) = false →
      step ins st = .fail (substr ins 5 2) st) ∧
    (binaryToDecimal (substr ins 0 5) = 9 → validRegister (substr ins 5 2) = false →
      step ins st = .fail (substr ins 5 2) st) ∧
    (binaryToDecimal (substr ins 0 5) = 9 → validRegister (substr ins 5 2) = true →
      validRegister (substr ins 7 2) = false →
      step ins st = .fail (substr ins 7 2) st) := by
  refine ⟨?_, ?_, ?_, ?_, ?_, ?_, ?_, ?_, ?_, ?_⟩
  · intro hop
    constructor
    · intro hdest
      rcases hop with h | h | h <;> simp [step, h, hdest]
    · intro hdest
      have hok : ∀ v, step ins st = StepRes.ok
            ⟨mset (mtouch 0 (mtouch 0 st.registers (substr ins 5 2)) (substr ins 7 2))
              (substr ins 9 2) v, st.arrays, st.input, st.output⟩ →
          ∃ st1, step ins st = StepRes.ok st1 ∧
            mget st1.registers (substr ins 9 2) = v ∧
            (mlookup st.registers (substr ins 5 2) = none →
              substr ins 5 2 ≠ substr ins 9 2 →
              mlookup st1.registers (substr ins 5 2) = some 0) ∧
            (mlookup st.registers (substr ins 7 2) = none →
              substr ins 7 2 ≠ substr ins 9 2 →
              mlookup st1.registers (substr ins 7 2) = some 0) := by
        intro v hstep
        refine ⟨_, hstep, mget_mset_self _ _ _, ?_, ?_⟩
        · intro hnone5 hne5
          rw [mlookup_mset_ne _ _ _ _ hne5]
          exact mlookup_mtouch_of_some _ _ _ _ _
            (mlookup_mtouch_self_none _ _ _ hnone5)
        · intro hnone7 hne7
          rw [mlookup_mset_ne _ _ _ _ hne7]
          by_cases hlr : substr ins 7 2 = substr ins 5 2
          · rw [hlr] at hnone7 ⊢
            exact mlookup_mtouch_of_some _ _ _ _ _
              (mlookup_mtouch_self_none _ _ _ hnone7)
          · refine mlookup_mtouch_self_none _ _ _ ?_
            rw [mlookup_mtouch_of_ne _ _ _ _ hlr]
            exact hnone7
      rcases hop with h | h | h
      · obtain ⟨st1, hstep, hval, h5, h7⟩ :=
          hok ((mget st.registers (substr ins 5 2) + mget st.registers (substr ins 7 2)) % W)
            (by simp [step, h, hdest])
        exact ⟨st1, hstep, by rw [hval]; simp [h, opResult, mget], h5, h7⟩
      · obtain ⟨st1, hstep, hval, h5, h7⟩ :=
          hok ((mget st.registers (substr ins 5 2) +
            (W - mget st.registers (substr ins 7 2) % W)) % W) (by simp [step, h, hdest])
        exact ⟨st1, hstep, by rw [hval]; simp [h, opResult, mget], h5, h7⟩
      · obtain ⟨st1, hstep, hval, h5, h7⟩ :=
          hok ((mget st.registers (substr ins 5 2) * mget st.registers (substr ins 7 2)) % W)
            (by simp [step, h, hdest])
        exact ⟨st1, hstep, by rw [hval]; simp [h, opResult, mget], h5, h7⟩
  · intro hop hv
    simp [step, hop, hv]
  · intro hop hv
    simp [step, hop, hv]
  · intro hop hv
    simp [step, hop, hv]
  · intro hop hdisc hv
    simp [step, hop, hdisc, hv]
  · intro hop hdisc hv5 hv11
    simp [step, hop, hdisc, hv5, hv11]
  · intro hop hdisc hv11
    simp [step, hop, hdisc, hv11]
  · intro hop hv
    simp [step, hop, hv]
  · intro hop hv
    simp [step, hop, hv]
  · intro hop hv5 hv7
    simp [step, hop, hv5, hv7]

/-- C4: the register file invariant.  At program start the register map
holds exactly the 4 registers `00`, `01`, `10`, `11`, each 0.  Every step
on a well-formed 13-character binary instruction, whether it succeeds or
aborts, leaves the register map with exactly those 4 keys: no operation
creates a new register or destroys an existing one. -/
theorem C4_register_file_invariant :
    (∀ input, (initState input).registers = [(c00, 0), (c01, 0), (c10, 0), (c11, 0)]) ∧
      (∀ ins st, wf13 ins → regKeys st.registers = [c00, c01, c10, c11] →
        regKeys (StepRes.state (step ins st)).registers = [c00, c01, c10, c11]) := by
  constructor
  · intro input
    rfl
  · intro ins st hwf hkeys
    have m5 : substr ins 5 2 ∈ regKeys st.registers := by
      rw [hkeys]
      rcases substr_code ins 5 hwf (by omega) with h | h | h | h <;> simp [h]
    have m7 : substr ins 7 2 ∈ regKeys st.registers := by
      rw [hkeys]
      rcases substr_code ins 7 hwf (by omega) with h | h | h | h <;> simp [h]
    have m9 : substr ins 9 2 ∈ regKeys st.registers := by
      rw [hkeys]
      rcases substr_code ins 9 hwf (by omega) with h | h | h | h <;> simp [h]
    have m11 : ins.drop 11 ∈ regKeys st.registers := by
      rw [hkeys]
      rcases drop11_code ins hwf with h | h | h | h <;> simp [h]
    by_cases h0 : binaryToDecimal (substr ins 0 5) = 0
    · simpa [step, h0, StepRes.state] using hkeys
    by_cases h1 : binaryToDecimal (substr ins 0 5) = 1
    · by_cases hv : validRegister (substr ins 5 2) = true
      · simp [step, h0, h1, hv, StepRes.state]
        rw [regKeys_mset_mem _ _ _ m5]
        exact hkeys
      · simpa [step, h0, h1, hv, StepRes.state] using hkeys
    by_cases h2 : binaryToDecimal (substr ins 0 5) = 2
    · by_cases hv : validRegister (substr ins 5 2) = true
      · simp [step, h0, h1, h2, hv, StepRes.state]
        rw [mtouch_eq_of_mem _ _ _ m5]
        exact hkeys
      · simpa [step, h0, h1, h2, hv, StepRes.state] using hkeys
    by_cases h3 : binaryToDecimal (substr ins 0 5) = 3
    · by_cases hv : validRegister (ins.drop 11) = true
      · simp [step, h0, h1, h2, h3, hv, StepRes.state]
        rw [regKeys_mset_mem _ _ _ m11]
        exact hkeys
      · simpa [step, h0, h1, h2, h3, hv, StepRes.state] using hkeys
    by_cases h4 : binaryToDecimal (substr ins 0 5) = 4
    · by_cases hv : validRegister (substr ins 9 2) = true
      · simp [step, h0, h1, h2, h3, h4, hv, StepRes.state]
        rw [mtouch_eq_of_mem _ _ _ m5, mtouch_eq_of_mem _ _ _ m7,
          regKeys_mset_mem _ _ _ m9]
        exact hkeys
      · simpa [step, h0, h1, h2, h3, h4, hv, StepRes.state] using hkeys
    by_cases h5 : binaryToDecimal (substr ins 0 5) = 5
    · by_cases hv : validRegister (substr ins 9 2) = true
      · simp [step, h0, h1, h2, h3, h4, h5, hv, StepRes.state]
        rw [mtouch_eq_of_mem _ _ _ m5, mtouch_eq_of_mem _ _ _ m7,
          regKeys_mset_mem _ _ _ m9]
        exact hkeys
      · simpa [step, h0, h1, h2, h3, h4, h5, hv, StepRes.state] using hkeys
    by_cases h6 : binaryToDecimal (substr ins 0 5) = 6
    · by_cases hv : validRegister (substr ins 9 2) = true
      · simp [step, h0, h1, h2, h3, h4, h5, h6, hv, StepRes.state]
        rw [mtouch_eq_of_mem _ _ _ m5, mtouch_eq_of_mem _ _ _ m7,
          regKeys_mset_mem _ _ _ m9]
        exact hkeys
      · simpa [step, h0, h1, h2, h3, h4, h5, h6, hv, StepRes.state] using hkeys
    by_cases h7 : binaryToDecimal (substr ins 0 5) = 7
    · by_cases hd : substr ins 7 4 = ['0', '0', '0', '0']
      · by_cases hv5 : validRegister (substr ins 5 2) = true
        · by_cases hv11 : validRegister (ins.drop 11) = true
          · simp [step, h0, h1, h2, h3, h4, h5, h6, h7, hd, hv5, hv11, StepRes.state]
            rw [mtouch_eq_of_mem _ _ _ m5]
            exact hkeys
          · simp [step, h0, h1, h2, h3, h4, h5, h6, h7, hd, hv5, hv11, StepRes.state]
            rw [mtouch_eq_of_mem _ _ _ m5]
            exact hkeys
        · simpa [step, h0, h1, h2, h3, h4, h5, h6, h7, hd, hv5, StepRes.state] using hkeys
      · by_cases hv11 : validRegister (ins.drop 11) = true
        · simpa [step, h0, h1, h2, h3, h4, h5, h6, h7, hd, hv11, StepRes.state] using hkeys
        · simpa [step, h0, h1, h2, h3, h4, h5, h6, h7, hd, hv11, StepRes.state] using hkeys
    by_cases h8 : binaryToDecimal (substr ins 0 5) = 8
    · by_cases hv : validRegister (substr ins 5 2) = true <;>
        simpa [step, h0, h1, h2, h3, h4, h5, h6, h7, h8, hv, StepRes.state] using hkeys
    by_cases h9 : binaryToDecimal (substr ins 0 5) = 9
    · by_cases hv5 : validRegister (substr ins 5 2) = true
      · by_cases hv7 : validRegister (substr ins 7 2) = true
        · simp [step, h0, h1, h2, h3, h4, h5, h6, h7, h8, h9, hv5, hv7, StepRes.state]
          rw [regKeys_mset_mem _ _ _ m7]
          exact hkeys
        · simpa [step, h0, h1, h2, h3, h4, h5, h6, h7, h8, h9, hv5, hv7,
            StepRes.state] using hkeys
      · simpa [step, h0, h1, h2, h3, h4, h5, h6, h7, h8, h9, hv5, StepRes.state] using hkeys
    by_cases h10 : binaryToDecimal (substr ins 0 5) = 10
    · simp [step, h0, h1, h2, h3, h4, h5, h6, h7, h8, h9, h10, StepRes.state]
      rw [regKeys_map_zero]
      exact hkeys
    · simpa [step, h0, h1, h2, h3, h4, h5, h6, h7, h8, h9, h10, StepRes.state] using hkeys

/-- C5: a program whose memory contains no all-zero 13-character token is
rejected with `MissingHaltError` before any instruction is executed: the
run result is the error and the state is still the freshly initialized
one, whatever the other instructions are. -/
theorem C5_missing_halt (memory : List (List Char)) (input : List Nat)
    (h : stopWord ∉ memory) :
    run memory input = (ExitStatus.missingHaltError, initState input) := by
  simp [run, h]

/-- C6 counterexample: the claim says any program containing an
instruction whose opcode field decodes above 10 is rejected with
`InvalidOpcodeError`.  The halt pre-check runs first: the one-instruction
program whose opcode field decodes to 31 but which lacks the all-zero
token is rejected with `MissingHaltError` instead. -/
theorem C6_halt_check_precedes_opcode_check :
    10 < binaryToDecimal (substr badOpcode 0 5) ∧
      (run [badOpcode] []).1 = ExitStatus.missingHaltError ∧
      (run [badOpcode] []).1 ≠ ExitStatus.invalidOpcodeError (substr badOpcode 0 5) := by
  decide

/-- C6 amended: for every program that passes the halt pre-check (contains
the all-zero token) and contains an instruction whose opcode field decodes
above 10, the run is rejected with `InvalidOpcodeError` naming an
offending opcode, and execution never begins: the final state is the
freshly initialized one, so no register, array or console side effect of
any instruction is observable. -/
theorem C6_amended_invalid_opcode (memory : List (List Char)) (input : List Nat)
    (hstop : stopWord ∈ memory)
    (hbad : ∃ ins ∈ memory, 10 < binaryToDecimal (substr ins 0 5)) :
    ∃ ins ∈ memory, 10 < binaryToDecimal (substr ins 0 5) ∧
      run memory input = (ExitStatus.invalidOpcodeError (substr ins 0 5), initState input) := by
  obtain ⟨y, hy, hfind, hpy⟩ :=
    @find?_mem_of_exists (fun ins => decide (10 < binaryToDecimal (substr ins 0 5)))
      memory (by
        obtain ⟨x, hx, hlt⟩ := hbad
        exact ⟨x, hx, decide_eq_true hlt⟩)
  refine ⟨y, hy, of_decide_eq_true hpy, ?_⟩
  simp [run, hstop, hfind]

/-- C7: for every executed List instruction, if the discriminator bits
7-11 are `0000` the allocated size is the value the register named at bits
5-7 holds at that moment, otherwise the size is the 6-bit literal at bits
5-11; in both cases a zero-initialized array of that size is bound to the
register code at bits 11-13, replacing any previous binding. -/
theorem C7_list_allocation (st : VMState) (ins : List Char)
    (hop : binaryToDecimal (substr ins 0 5) = 7) :
    (substr ins 7 4 = ['0', '0', '0', '0'] →
      validRegister (substr ins 5 2) = true →
      validRegister (ins.drop 11) = true →
      ∃ st1, step ins st = .ok st1 ∧
        mlookup st1.arrays (ins.drop 11) =
          some (List.replicate (mget st.registers (substr ins 5 2)) 0)) ∧
      (substr ins 7 4 ≠ ['0', '0', '0', '0'] →
        validRegister (ins.drop 11) = true →
        ∃ st1, step ins st = .ok st1 ∧
          mlookup st1.arrays (ins.drop 11) =
            some (List.replicate (binaryToDecimal (substr ins 5 6)) 0)) := by
  constructor
  · intro hdisc hsrc hdst
    refine ⟨⟨mtouch 0 st.registers (substr ins 5 2),
      mset st.arrays (ins.drop 11)
        (List.replicate (mget st.registers (substr ins 5 2)) 0),
      st.input, st.output⟩, ?_, ?_⟩
    · simp [step, hop, hdisc, hsrc, hdst]
    · exact mlookup_mset_self _ _ _
  · intro hdisc hdst
    refine ⟨⟨st.registers,
      mset st.arrays (ins.drop 11)
        (List.replicate (binaryToDecimal (substr ins 5 6)) 0),
      st.input, st.output⟩, ?_, ?_⟩
    · simp [step, hop, hdisc, hdst]
    · exact mlookup_mset_self _ _ _

/-- C8: `binaryToDecimal` round-trips with the canonical fixed-width
binary encoder on every value representable in the field width, and the
empty or all-zero string decodes to 0. -/
theorem C8_binaryToDecimal_roundtrip :
    (∀ w n, n < 2 ^ w → binaryToDecimal (natToBinary w n) = n) ∧
      (∀ L, binaryToDecimal (List.replicate L '0') = 0) ∧
      binaryToDecimal [] = 0 :=
  ⟨binaryToDecimal_natToBinary, binaryToDecimal_replicate_zero, rfl⟩

/-- C9: a TidyUp step (opcode 10) zeroes every register while keeping the
register key set, and leaves the array table, the pending input and the
produced output untouched. -/
theorem C9_tidyup_frame (st : VMState) (ins : List Char)
    (hop : binaryToDecimal (substr ins 0 5) = 10) :
    ∃ st1, step ins st = .ok st1 ∧ st1.arrays = st.arrays ∧
      (∀ k, mget st1.registers k = 0) ∧
      regKeys st1.registers = regKeys st.registers ∧
      st1.input = st.input ∧ st1.output = st.output := by
  refine ⟨⟨st.registers.map (fun p => (p.1, 0)), st.arrays, st.input, st.output⟩,
    ?_, rfl, ?_, ?_, rfl, rfl⟩
  · simp [step, hop]
  · intro k
    exact mget_map_zero _ _
  · exact regKeys_map_zero _

/-- C10: a ListSum step (opcode 9) with valid source and destination
fields, where no array is bound to the source code, stores 0 into the
destination register, leaves an empty array bound to the source code, and
reports no error. -/
theorem C10_listsum_missing_array (st : VMState) (ins : List Char)
    (hop : binaryToDecimal (substr ins 0 5) = 9)
    (hsrc : validRegister (substr ins 5 2) = true)
    (hdst : validRegister (substr ins 7 2) = true)
    (hnone : mlookup st.arrays (substr ins 5 2) = none) :
    ∃ st1, step ins st = .ok st1 ∧
      mget st1.registers (substr ins 7 2) = 0 ∧
      mlookup st1.arrays (substr ins 5 2) = some [] := by
  have harrs : mtouch [] st.arrays (substr ins 5 2) =
      st.arrays ++ [(substr ins 5 2, ([] : List Nat))] := by
    unfold mtouch
    rw [hnone]
  refine ⟨⟨mset st.registers (substr ins 7 2)
      ((mgetArr (mtouch [] st.arrays (substr ins 5 2)) (substr ins 5 2)).sum % W),
    mtouch [] st.arrays (substr ins 5 2), st.input, st.output⟩, ?_, ?_, ?_⟩
  · simp [step, hop, hsrc, hdst]
  · rw [mget_mset_self, harrs, mgetArr, mlookup_append_none _ _ _ hnone]
    simp
  · rw [harrs]
    exact mlookup_append_none _ _ _ hnone

/-- Witness for C2 amended at a concrete Add instruction and the initial
state. -/
theorem C2_amended_witness :
    ∃ st1, step addIns (initState []) = StepRes.ok st1 ∧
      mget st1.registers (substr addIns 9 2) =
        opResult (binaryToDecimal (substr addIns 0 5))
          (mget (initState []).registers (substr addIns 5 2))
          (mget (initState []).registers (substr addIns 7 2)) :=
  C2_amended_dest_bits_9_11 (initState []) addIns (Or.inl (by decide)) (by decide)

/-- Witness for C3 amended: the concrete Add instruction whose lhs field
is the invalid string `22` executes anyway, default-inserting that key
with the value 0. -/
theorem C3_amended_witness :
    ∃ st1, step addBad (initState []) = StepRes.ok st1 ∧
      mlookup st1.registers (substr addBad 5 2) = some 0 := by
  obtain ⟨st1, hstep, hval, h5, h7⟩ :=
    ((C3_amended_only_dest_checked (initState []) addBad).1 (Or.inl (by decide))).2
      (by decide)
  exact ⟨st1, hstep, h5 (by decide) (by decide)⟩

/-- Witness for C4 at a concrete well-formed Add instruction and the
initial state. -/
theorem C4_witness :
    regKeys (StepRes.state (step addIns (initState []))).registers =
      [c00, c01, c10, c11] :=
  C4_register_file_invariant.2 addIns (initState []) (by
    refine ⟨by decide, ?_⟩
    decide) (by decide)

/-- Witness for C5 at a concrete one-instruction program with no all-zero
token. -/
theorem C5_witness :
    run [badOpcode] [] = (ExitStatus.missingHaltError, initState []) :=
  C5_missing_halt [badOpcode] [] (by decide)

/-- Witness for C6 amended at a concrete program holding the Stop token
and an instruction whose opcode field decodes to 31. -/
theorem C6_amended_witness :
    ∃ ins ∈ [stopWord, badOpcode], 10 < binaryToDecimal (substr ins 0 5) ∧
      run [stopWord, badOpcode] [] =
        (ExitStatus.invalidOpcodeError (substr ins 0 5), initState []) :=
  C6_amended_invalid_opcode [stopWord, badOpcode] [] (by decide) (by decide)

/-- Witness for C7 at a concrete List instruction with literal size 3. -/
theorem C7_witness :
    ∃ st1, step listIns (initState []) = StepRes.ok st1 ∧
      mlookup st1.arrays (listIns.drop 11) =
        some (List.replicate (binaryToDecimal (substr listIns 5 6)) 0) :=
  (C7_list_allocation (initState []) listIns (by decide)).2 (by decide) (by decide)

/-- Witness for C8 at width 6 and value 37. -/
theorem C8_witness : binaryToDecimal (natToBinary 6 37) = 37 :=
  C8_binaryToDecimal_roundtrip.1 6 37 (by decide)

/-- Witness for C9 at a concrete TidyUp instruction and the initial
state. -/
theorem C9_witness :
    ∃ st1, step tidyIns (initState []) = StepRes.ok st1 ∧
      st1.arrays = (initState []).arrays ∧ mget st1.registers c00 = 0 := by
  obtain ⟨st1, hstep, harr, hreg, _, _, _⟩ :=
    C9_tidyup_frame (initState []) tidyIns (by decide)
  exact ⟨st1, hstep, harr, hreg c00⟩

/-- Witness for C10 at a concrete ListSum instruction and the initial
state, where no array is bound to the source register. -/
theorem C10_witness :
    ∃ st1, step listSumIns (initState []) = StepRes.ok st1 ∧
      mget st1.registers (substr listSumIns 7 2) = 0 ∧
      mlookup st1.arrays (substr listSumIns 5 2) = some [] :=
  C10_listsum_missing_array (initState []) listSumIns (by decide) (by decide)
    (by decide) rfl

end Simulator
